import Mathlib

/-!
Shallow embedding of `src/scrapper.py` (movieGuesser repository).

The two core analyzers are modelled:
  * `get_best_picture_nominations` — the table nomination extractor
    (scrapper.py lines 21–129, after the HTTP fetch and HTML parse);
  * `extract_plot_from_section` / `extract_plot` — the section text
    extractor (scrapper.py lines 131–206, after the fetch).

The BeautifulSoup document abstraction is embedded as follows.  For the
table extractor, the input is the list of tables produced by
`soup.find_all('table', class_='wikitable')`; each table carries the
results of the accessor calls the code performs on it (preceding-sibling
texts, caption text, rows with header-cell text, data cells, links).
For the section extractor, the document is a tree of nodes (tag, class
list, children), since `find_all` descends into the tree and
`find_next_sibling` walks sibling lists.

Python string operations are embedded at the character-list level:
`lowerStr` is `str.lower()`, `pyIn` is the substring test `a in b`,
`pyStarts` is `str.startswith`, `pyHasChar` is `c in s` for a character,
`pyStrip` stands for `str.strip()`.
-/

/-- Python `str.lower()` (ASCII case folding, as on this page's text). -/
def lowerStr (s : String) : String := String.mk (s.toList.map Char.toLower)

/-- Python substring containment `needle in hay` on strings. -/
def pyIn (needle hay : String) : Bool :=
  hay.toList.tails.any (fun t => needle.toList.isPrefixOf t)

/-- Python `s.startswith(pre)`. -/
def pyStarts (s pre : String) : Bool := pre.toList.isPrefixOf s.toList

/-- Python `c in s` for a single character `c`. -/
def pyHasChar (s : String) (c : Char) : Bool := s.toList.any (fun x => x == c)

/-- Python `str.strip()`: drop leading and trailing whitespace. -/
def pyStrip (s : String) : String :=
  String.mk (((s.toList.dropWhile Char.isWhitespace).reverse.dropWhile Char.isWhitespace).reverse)

/-- Python `sep.join(parts)`. -/
def joinSep (sep : String) : List String → String
  | [] => ""
  | [s] => s
  | s :: rest => s ++ sep ++ joinSep sep rest

/-- A link (`<a>` tag) inside a cell: `href` is `link.get('href')`
(absent when the tag has no href attribute), `text` is
`link.get_text(strip=True)`. -/
structure Link where
  href : Option String
  text : String
deriving DecidableEq, Repr

/-- A data cell (`<td>`): `text` is `cell.get_text(strip=True)`, `links`
are its `<a>` descendants in document order (`cell.find('a')` is the
head). -/
structure Cell where
  text : String
  links : List Link
deriving DecidableEq, Repr

/-- A table row (`<tr>`): `text` is `row.get_text()`, `th` is
`row.find('th').get_text(strip=True)` when the row has a `<th>`
descendant, `cells` is `row.find_all('td')`. -/
structure Row where
  text : String
  th : Option String
  cells : List Cell
deriving DecidableEq, Repr

/-- A candidate table (`<table class="wikitable">`): `prevSiblings` are
the `get_text()` values of the chain of preceding sibling tags, nearest
first (the code reads up to 3 of them); `caption` is
`table.find('caption').get_text()` when a caption exists; `rows` is
`table.find_all('tr')`. -/
structure Table where
  prevSiblings : List String
  caption : Option String
  rows : List Row
deriving DecidableEq, Repr

/-- One extracted record appended to `movies` (scrapper.py lines 123–127). -/
structure Movie where
  year : Option String
  title : String
  url : String
deriving DecidableEq, Repr

/-- scrapper.py lines 24–28: the fixed stop-phrase list. -/
def stop_phrases : List String :=
  [ "Production companies and distributors with multiple nominations and wins"
  , "production company"
  , "distributor" ]

/-- Python `any(phrase.lower() in element_text for phrase in stop_phrases)` where
`element_text` is the element's text lowercased (scrapper.py lines 45–46,
56–57). -/
def containsStopPhrase (txt : String) : Bool :=
  stop_phrases.any (fun p => pyIn (lowerStr p) (lowerStr txt))

/-- scrapper.py lines 35–48: collect up to 3 preceding siblings and test
each one's text for a stop phrase. -/
def shouldStopTable (t : Table) : Bool :=
  (t.prevSiblings.take 3).any containsStopPhrase

/-- scrapper.py lines 53–58: the caption stop-phrase test. -/
def captionStopTable (t : Table) : Bool :=
  match t.caption with
  | none => false
  | some c => containsStopPhrase c

/-- scrapper.py lines 60–65: the first-row test.  `first_row` is
`table.find('tr')`; the code breaks when its lowercased text contains
"production company", or contains both "nominations" and "wins"
(Python's `or`/`and` precedence). -/
def firstRowStopTable (t : Table) : Bool :=
  match t.rows.head? with
  | none => false
  | some r =>
    let h := lowerStr r.text
    pyIn "production company" h || (pyIn "nominations" h && pyIn "wins" h)

/-- scrapper.py line 78: digits of the header-cell text before the first
line break — `''.join(filter(str.isdigit, year_text.split('\n')[0]))`. -/
def thDigits (t : String) : List Char :=
  (t.toList.takeWhile (fun c => c != '\n')).filter Char.isDigit

/-- scrapper.py lines 74–80: the year a row's header cell supplies, if
any.  `row.find('th')` is `r.th`; the year is set only when at least 4
digits are found, to their first 4. -/
def extractYear (r : Row) : Option String :=
  match r.th with
  | none => none
  | some t => if 4 ≤ (thDigits t).length then some (String.mk ((thDigits t).take 4)) else none

/-- The `current_year` update a row performs (scrapper.py lines 74–80):
a qualifying header cell overwrites it, anything else leaves it. -/
def yearUpdate (cur : Option String) (r : Row) : Option String :=
  match extractYear r with
  | some y => some y
  | none => cur

/-- scrapper.py lines 93–94: the first-cell year test —
`first_cell_text and first_cell_text.replace('/','').replace('(','').replace(')','').isdigit()`.
Python `str.isdigit` is true iff the string is non-empty and all digits. -/
def firstCellIsYear (s : String) : Bool :=
  let r := s.toList.filter (fun c => c != '/' && c != '(' && c != ')')
  !(s == "") && (!r.isEmpty && r.all Char.isDigit)

/-- scrapper.py lines 90–106: select the film cell of a row. -/
def filmCell? (r : Row) : Option Cell :=
  match r.cells with
  | [] => none
  | [c] => some c
  | c0 :: c1 :: _ => if firstCellIsYear c0.text then some c1 else some c0

/-- CPython `urllib.parse` removes tab, CR and LF characters anywhere
in the url before parsing it (`_UNSAFE_URL_BYTES_TO_REMOVE`); the
leading-whitespace strip is a no-op here because every href reaching
`urljoin` starts with '/'. -/
def stripUnsafe (s : String) : String :=
  String.mk (s.toList.filter (fun c => c != '\t' && c != '\r' && c != '\n'))

/-- Helper for `pyPartition`: scan for the first occurrence of `c`. -/
def partAux (c : Char) : List Char → List Char → String × String
  | [], acc => (String.mk acc.reverse, "")
  | x :: xs, acc =>
    if x == c then (String.mk acc.reverse, String.mk xs)
    else partAux c xs (x :: acc)

/-- Python `s.split(c, 1)` with the not-found case collapsed: the part
before the first `c` and the part after it (empty when `c` is absent —
urlunsplit reattaches the separator only for a non-empty part, so the
found-with-empty-rest and not-found cases rebuild identically). -/
def pyPartition (s : String) (c : Char) : String × String := partAux c s.toList []

/-- Helper for `pySplitChar`. -/
def splitCharAux (c : Char) : List Char → List Char → List String
  | [], acc => [String.mk acc.reverse]
  | x :: xs, acc =>
    if x == c then String.mk acc.reverse :: splitCharAux c xs []
    else splitCharAux c xs (x :: acc)

/-- Python `s.split(c)` (keeping empty pieces). -/
def pySplitChar (s : String) (c : Char) : List String := splitCharAux c s.toList []

/-- First occurrence split returning `none` when `c` is absent. -/
def splitAtFirst? (c : Char) : List Char → Option (List Char × List Char)
  | [] => none
  | x :: xs =>
    if x == c then some ([], xs)
    else
      match splitAtFirst? c xs with
      | none => none
      | some (b, a) => some (x :: b, a)

/-- `urllib.parse._splitparams`: split off params at the first ';'
located at or after the last '/' — equivalently, split the final
'/'-segment at its first ';'; a ';' in an earlier segment is left in
the path. -/
def pySplitParams (path : String) : String × String :=
  let l := path.toList
  let lastSeg := (l.reverse.takeWhile (fun ch => ch != '/')).reverse
  let front := l.take (l.length - lastSeg.length)
  match splitAtFirst? ';' lastSeg with
  | none => (path, "")
  | some (b, a) => (String.mk (front ++ b), String.mk a)

/-- The dot-segment resolution loop of `urljoin`: '..' pops the last
resolved segment (underflow ignored), '.' is skipped, anything else is
appended.  The accumulator is kept reversed, so pop is `tail`. -/
def dotFold (acc : List String) : List String → List String
  | [] => acc.reverse
  | s :: rest =>
    if s == ".." then dotFold acc.tail rest
    else if s == "." then dotFold acc rest
    else dotFold (s :: acc) rest

/-- The href's fragment: the part after the first '#' (urlsplit). -/
def hrefFragment (href : String) : String := (pyPartition (stripUnsafe href) '#').2

/-- The href's query: the part after the first '?' of the pre-fragment
part (urlsplit splits the fragment first, then the query). -/
def hrefQuery (href : String) : String :=
  (pyPartition (pyPartition (stripUnsafe href) '#').1 '?').2

/-- The href's path: what remains before query and fragment, with
params removed (urlparse). -/
def hrefPath (href : String) : String :=
  (pySplitParams (pyPartition (pyPartition (stripUnsafe href) '#').1 '?').1).1

/-- The href's params (urlparse). -/
def hrefParams (href : String) : String :=
  (pySplitParams (pyPartition (pyPartition (stripUnsafe href) '#').1 '?').1).2

/-- The resolved path segments: dot-removal over `path.split('/')`,
plus the trailing empty segment urljoin appends when the original last
segment is '.' or '..'. -/
def resolvedSegs (href : String) : List String :=
  let segs := pySplitChar (hrefPath href) '/'
  let r := dotFold [] segs
  match segs.getLast? with
  | some s => if s == "." || s == ".." then r ++ [""] else r
  | none => r

/-- `'/'.join(resolved_path) or '/'` in urljoin. -/
def resolvedPath (href : String) : String :=
  let p := joinSep "/" (resolvedSegs href)
  if p == "" then "/" else p

/-- urlunparse reattaches non-empty params to the path with ';'. -/
def pathParams (href : String) : String :=
  if hrefParams href == "" then resolvedPath href
  else resolvedPath href ++ ";" ++ hrefParams href

/-- urlunsplit prepends '/' when the netloc is present and the path
does not already start with one. -/
def urljoinPath (href : String) : String :=
  match (pathParams href).toList with
  | [] => pathParams href
  | c :: _ => if c == '/' then pathParams href else "/" ++ pathParams href

/-- urlunsplit reattaches non-empty query and fragment with '?', '#'. -/
def urljoinSuffix (href : String) : String :=
  (if hrefQuery href == "" then "" else "?" ++ hrefQuery href)
    ++ (if hrefFragment href == "" then "" else "#" ++ hrefFragment href)

/-- `urljoin("https://en.wikipedia.org", href)` of CPython's
`urllib.parse`, for the hrefs the scrapper can pass to it (they start
with "/wiki/" and contain no colon, both checked beforehand at
scrapper.py lines 115–118): the base's scheme and network location are
kept, the href is split into path, params, query and fragment, the
path undergoes RFC 3986 dot-segment removal, and the result is
reassembled as scheme://netloc + path[;params][?query][#fragment]. -/
def urljoin (href : String) : String :=
  "https://en.wikipedia.org" ++ urljoinPath href ++ urljoinSuffix href

/-- scrapper.py lines 108–127: given the film cell, the record the row
produces, if any.  `film_cell.find('a')` is the head of `links`; the row
is skipped when there is no link, no href, the href does not start with
"/wiki/", the href contains a colon, or the link text is empty;
otherwise the record's url is `urljoin("https://en.wikipedia.org",
href)`, modelled by `urljoin` above. -/
def cellRecord (cur : Option String) (cell : Cell) : Option Movie :=
  match cell.links.head? with
  | none => none
  | some link =>
    match link.href with
    | none => none
    | some href =>
      if !pyStarts href "/wiki/" then none
      else if pyHasChar href ':' then none
      else if link.text == "" then none
      else some ⟨cur, link.text, urljoin href⟩

/-- The record a row contributes (scrapper.py lines 82–127), given the
already-updated `current_year`. -/
def rowRecord (cur : Option String) (r : Row) : Option Movie :=
  match filmCell? r with
  | none => none
  | some cell => cellRecord cur cell

/-- scrapper.py lines 70–127: the row loop of one table, threading
`current_year` (the year update at lines 74–80 runs before the
zero-cell skip). -/
def processRows (cur : Option String) : List Row → List Movie
  | [] => []
  | r :: rs =>
    let cur2 := yearUpdate cur r
    match rowRecord cur2 r with
    | none => processRows cur2 rs
    | some m => m :: processRows cur2 rs

/-- scrapper.py lines 33–127: the table loop.  Each of the three stop
tests executes `break`, ending the whole loop; `current_year` is reset
to `None` at line 68 for every table. -/
def processTables : List Table → List Movie
  | [] => []
  | t :: ts =>
    if shouldStopTable t then []
    else if captionStopTable t then []
    else if firstRowStopTable t then []
    else processRows none t.rows ++ processTables ts

/-- scrapper.py lines 8–129: `get_best_picture_nominations`, as a
function of the parsed document's wikitable list. -/
def get_best_picture_nominations (tables : List Table) : List Movie :=
  processTables tables

/-- A parsed HTML node for the section extractor: either a text node
(`NavigableString`) or a tag with name, class-attribute tokens and
ordered children.  The document (`soup`) is its top-level node list. -/
inductive Node where
  | text (s : String)
  | elem (tag : String) (classes : List String) (children : List Node)

mutual
/-- The text strings of a node's subtree in document order
(BeautifulSoup `.strings`); `get_text()` joins them with `''`,
`get_text(separator=' ', strip=True)` strips each, drops the empty ones
and joins with `' '`. -/
def textsOf : Node → List String
  | .text s => [s]
  | .elem _ _ cs => textsList cs

/-- The map of `textsOf` over a node list. -/
def textsList : List Node → List String
  | [] => []
  | n :: ns => textsOf n ++ textsList ns
end

/-- BeautifulSoup `element.get_text()`: subtree strings joined with no separator. -/
def getText (n : Node) : String := joinSep "" (textsOf n)

/-- BeautifulSoup `element.get_text(separator=' ', strip=True)`: each subtree string
stripped, empty ones dropped, the rest joined by single spaces. -/
def getTextSpaceStrip (n : Node) : String :=
  joinSep " " (((textsOf n).map pyStrip).filter (fun s => !(s == "")))

mutual
/-- Whether a node is, or contains, an `<h2>` tag. -/
def nodeHasH2 : Node → Bool
  | .text _ => false
  | .elem tag _ cs => tag == "h2" || listHasH2 cs

/-- Whether `element.find('h2')` over this child list succeeds. -/
def listHasH2 : List Node → Bool
  | [] => false
  | n :: ns => nodeHasH2 n || listHasH2 ns
end

/-- scrapper.py lines 136–146: whether an element is accepted as the
section heading for `section_name` — a `div` whose class list contains
`mw-heading` and whose text contains the name case-insensitively, or an
`h2`/`h3` whose text contains the name case-insensitively. -/
def headingMatch (section_name : String) : Node → Bool
  | .text _ => false
  | .elem tag classes cs =>
    if tag == "div" then
      classes.contains "mw-heading" && pyIn (lowerStr section_name) (lowerStr (joinSep "" (textsList cs)))
    else if tag == "h2" || tag == "h3" then
      pyIn (lowerStr section_name) (lowerStr (joinSep "" (textsList cs)))
    else false

mutual
/-- scrapper.py lines 133–146: find the first matching heading in
document (preorder) order; the result is the matched element's list of
following siblings, over which the paragraph walk then runs
(`find_next_sibling`, lines 153–172). -/
def findSecList (section_name : String) : List Node → Option (List Node)
  | [] => none
  | n :: ns =>
    if headingMatch section_name n then some ns
    else
      match findSecInside section_name n with
      | some r => some r
      | none => findSecList section_name ns

/-- The preorder search under one node's children. -/
def findSecInside (section_name : String) : Node → Option (List Node)
  | .text _ => none
  | .elem _ _ cs => findSecList section_name cs
end

/-- scrapper.py lines 152–172: the sibling walk.  A `div` with class
`mw-heading` containing an `<h2>` ends the walk, as does a bare `<h2>`;
`<p>` elements contribute their non-empty `get_text(' ', strip=True)`
text; everything else (including `<h3>` sub-headings and text nodes,
which `find_next_sibling` skips) is passed over. -/
def collectPlot : List Node → List String
  | [] => []
  | .text _ :: ns => collectPlot ns
  | .elem tag classes cs :: ns =>
    if tag == "div" && classes.contains "mw-heading" && listHasH2 cs then []
    else if tag == "h2" then []
    else if tag == "p" then
      let t := getTextSpaceStrip (.elem tag classes cs)
      if t == "" then collectPlot ns else t :: collectPlot ns
    else collectPlot ns

/-- scrapper.py lines 131–174: `extract_plot_from_section`. -/
def extract_plot_from_section (soup : List Node) (section_name : String) : Option String :=
  match findSecList section_name soup with
  | none => none
  | some rest =>
    let ps := collectPlot rest
    if ps.isEmpty then none else some (joinSep " " ps)

/-- Python truthiness of an optional string (`if not plot_text`). -/
def pyFalsy : Option String → Bool
  | none => true
  | some s => s == ""

/-- scrapper.py lines 185–202: the label-fallback core of
`extract_plot` — try "Plot", then "Synopsis" when the first result is
falsy, and return `None` when both are. -/
def extract_plot (soup : List Node) : Option String :=
  let p1 := extract_plot_from_section soup "Plot"
  let p2 := if pyFalsy p1 then extract_plot_from_section soup "Synopsis" else p1
  if pyFalsy p2 then none else p2

/-! ## Helper lemmas -/

/-- Any of the three `break`-producing tests of the table loop. -/
def tableStops (t : Table) : Bool :=
  shouldStopTable t || captionStopTable t || firstRowStopTable t

/-- Once a table fires one of the three `break` tests, the whole table
loop ends: tables after it contribute nothing. -/
theorem processTables_stop (t : Table) (ht : tableStops t = true)
    (pre post : List Table) :
    processTables (pre ++ t :: post) = processTables pre := by
  induction pre with
  | nil =>
    cases hs : shouldStopTable t <;> cases hc : captionStopTable t <;>
      cases hf : firstRowStopTable t <;>
      simp_all [processTables, tableStops]
  | cons a pre ih =>
    cases ha : shouldStopTable a <;> cases hb : captionStopTable a <;>
      cases hc : firstRowStopTable a <;>
      simp_all [processTables]

/-- A record produced by a row carries the supplied `current_year`, a
non-empty title, and a URL built from an accepted "/wiki/" href with no
colon. -/
theorem cellRecord_spec (c : Option String) (cell : Cell) (m : Movie)
    (h : cellRecord c cell = some m) :
    m.year = c ∧ m.title ≠ "" ∧
      ∃ href : String, pyStarts href "/wiki/" = true ∧
        pyHasChar href ':' = false ∧
        m.url = urljoin href := by
  unfold cellRecord at h
  cases hl : cell.links.head? with
  | none => rw [hl] at h; cases h
  | some link =>
    rw [hl] at h; dsimp only at h
    cases hh : link.href with
    | none => rw [hh] at h; cases h
    | some href =>
      rw [hh] at h; dsimp only at h
      by_cases h1 : pyStarts href "/wiki/" = true
      · by_cases h2 : pyHasChar href ':' = true
        · simp [h1, h2] at h
        · by_cases h3 : link.text = ""
          · simp [h1, h2, h3] at h
          · have h3' : (link.text == "") = false := by simpa using h3
            rw [if_neg (by simp [h1]), if_neg (by simp [h2]),
              if_neg (by simp [h3'])] at h
            cases h
            refine ⟨rfl, h3, href, h1, ?_, rfl⟩
            simpa using h2
      · simp only [Bool.not_eq_true] at h1
        rw [if_pos (by simp [h1])] at h
        cases h

/-- A record produced by a row carries the supplied `current_year`, a
non-empty title, and a URL built from an accepted "/wiki/" href with no
colon. -/
theorem rowRecord_spec (c : Option String) (r : Row) (m : Movie)
    (h : rowRecord c r = some m) :
    m.year = c ∧ m.title ≠ "" ∧
      ∃ href : String, pyStarts href "/wiki/" = true ∧
        pyHasChar href ':' = false ∧
        m.url = urljoin href := by
  unfold rowRecord at h
  cases hf : filmCell? r with
  | none => rw [hf] at h; cases h
  | some cell =>
    rw [hf] at h
    exact cellRecord_spec c cell m h

/-- Every record of the row loop comes from `rowRecord` at some
`current_year` value reachable by `yearUpdate` steps preserving `P`. -/
theorem processRows_mem (P : Option String → Prop)
    (hP : ∀ c r, P c → P (yearUpdate c r)) (cur : Option String)
    (rows : List Row) (m : Movie) (hcur : P cur)
    (hm : m ∈ processRows cur rows) :
    ∃ c r, P c ∧ rowRecord c r = some m := by
  induction rows generalizing cur with
  | nil => simp [processRows] at hm
  | cons r rs ih =>
    simp only [processRows] at hm
    cases hr : rowRecord (yearUpdate cur r) r with
    | none =>
      rw [hr] at hm
      exact ih (yearUpdate cur r) (hP cur r hcur) hm
    | some m0 =>
      rw [hr] at hm
      rcases List.mem_cons.mp hm with h | h
      · exact ⟨yearUpdate cur r, r, hP cur r hcur, h ▸ hr⟩
      · exact ih (yearUpdate cur r) (hP cur r hcur) h

/-- Every record of the table loop comes from some table's row loop,
run with `current_year` starting at `None`. -/
theorem processTables_mem (tables : List Table) (m : Movie)
    (hm : m ∈ processTables tables) :
    ∃ t, t ∈ tables ∧ m ∈ processRows none t.rows := by
  induction tables with
  | nil => simp [processTables] at hm
  | cons t ts ih =>
    simp only [processTables] at hm
    by_cases h1 : shouldStopTable t = true
    · simp [h1] at hm
    · by_cases h2 : captionStopTable t = true
      · simp [h1, h2] at hm
      · by_cases h3 : firstRowStopTable t = true
        · simp [h1, h2, h3] at hm
        · simp only [h1, h2, h3, if_false, Bool.false_eq_true] at hm
          rcases List.mem_append.mp hm with h | h
          · exact ⟨t, List.mem_cons_self t ts, h⟩
          · rcases ih h with ⟨t', ht', hmem⟩
            exact ⟨t', List.mem_cons_of_mem t ht', hmem⟩

/-! ## C1 — stop-phrase termination -/

/-- A table with no preceding siblings and no caption whose first row's
text is "Distributor" — a stop phrase — followed by a valid film row. -/
def c1Table : Table :=
  ⟨[], none,
   [ ⟨"Distributor", some "Distributor", []⟩
   , ⟨"Example Film", none,
      [⟨"Example Film", [⟨some "/wiki/Example_Film", "Example Film"⟩]⟩]⟩ ]⟩

/-- C1 counterexample: the first row's text of `c1Table` contains the
stop phrase "distributor" case-insensitively, yet extraction does not
terminate — a record from that very Block is returned.  The code's
first-row test (scrapper.py line 64) checks only "production company"
and "nominations"/"wins", not the stop-phrase list, so a stop phrase
such as "distributor" in the first row does not stop anything. -/
theorem c1_counterexample :
    (c1Table.rows.head?.map Row.text = some "Distributor")
    ∧ containsStopPhrase "Distributor" = true
    ∧ c1Table.prevSiblings = [] ∧ c1Table.caption = none
    ∧ get_best_picture_nominations [c1Table] =
        [⟨none, "Example Film", "https://en.wikipedia.org/wiki/Example_Film"⟩] := by
  decide

/-- C1 (amended): if any of up to 3 preceding sibling elements or the
Block's caption contains a stop phrase, or the Block's first Row's text
contains "production company" or both "nominations" and "wins"
(case-insensitively), extraction terminates entirely: no record from
that Block or any subsequent Block appears — the result is exactly that
of running the extractor on the preceding Blocks alone. -/
theorem c1_stop_termination (pre post : List Table) (t : Table)
    (ht : shouldStopTable t = true ∨ captionStopTable t = true ∨
          firstRowStopTable t = true) :
    get_best_picture_nominations (pre ++ t :: post) =
      get_best_picture_nominations pre := by
  unfold get_best_picture_nominations
  apply processTables_stop t _ pre post
  unfold tableStops
  rcases ht with h | h | h <;> simp [h]

/-- A table whose nearest preceding sibling is a statistics heading. -/
def c1StopTable : Table :=
  ⟨["Production companies and distributors with multiple nominations and wins"],
   none, []⟩

/-- A structurally valid one-row nomination table. -/
def c1GoodTable : Table :=
  ⟨[], none,
   [⟨"Good Film", none, [⟨"Good Film", [⟨some "/wiki/Good_Film", "Good Film"⟩]⟩]⟩]⟩

/-- Witness for `c1_stop_termination`: a stopping table wipes out a
structurally valid later table. -/
theorem c1_stop_termination_witness :
    shouldStopTable c1StopTable = true
    ∧ get_best_picture_nominations [c1GoodTable] =
        [⟨none, "Good Film", "https://en.wikipedia.org/wiki/Good_Film"⟩]
    ∧ get_best_picture_nominations ([c1GoodTable] ++ c1StopTable :: [c1GoodTable]) =
        get_best_picture_nominations [c1GoodTable] :=
  ⟨by decide, by decide,
   c1_stop_termination [c1GoodTable] [c1GoodTable] c1StopTable (Or.inl (by decide))⟩

/-! ## C2 — aggregate-table first-row test: skip or terminate? -/

/-- A table whose first row's text contains both "nominations" and
"wins" (an aggregate table), with nothing else triggering a stop. -/
def c2AggTable : Table :=
  ⟨[], none, [⟨"Nominations and Wins", none, []⟩]⟩

/-- A structurally valid nomination table placed after it. -/
def c2GoodTable : Table :=
  ⟨[], none,
   [⟨"Later Film", none, [⟨"Later Film", [⟨some "/wiki/Later_Film", "Later Film"⟩]⟩]⟩]⟩

/-- C2 counterexample: the first-row nominations/wins test executes
`break` (scrapper.py line 65), ending the whole table loop — the later
structurally valid Block contributes nothing, so the Block is not
merely skipped. -/
theorem c2_counterexample :
    pyIn "nominations" (lowerStr "Nominations and Wins") = true
    ∧ pyIn "wins" (lowerStr "Nominations and Wins") = true
    ∧ (c2AggTable.rows.head?.map Row.text = some "Nominations and Wins")
    ∧ get_best_picture_nominations [c2GoodTable] =
        [⟨none, "Later Film", "https://en.wikipedia.org/wiki/Later_Film"⟩]
    ∧ get_best_picture_nominations [c2AggTable, c2GoodTable] = [] := by
  decide

/-- C2 (amended): a Block whose first Row's combined text contains both
a nomination-count term and a win-count term terminates extraction
entirely, exactly like a stop phrase — no record from that Block or any
later Block is returned. -/
theorem c2_aggregate_terminates (pre post : List Table) (t : Table)
    (r : Row) (hr : t.rows.head? = some r)
    (h1 : pyIn "nominations" (lowerStr r.text) = true)
    (h2 : pyIn "wins" (lowerStr r.text) = true) :
    get_best_picture_nominations (pre ++ t :: post) =
      get_best_picture_nominations pre := by
  unfold get_best_picture_nominations
  apply processTables_stop t _ pre post
  unfold tableStops firstRowStopTable
  rw [hr]
  simp [h1, h2]

/-- Witness for `c2_aggregate_terminates` on the concrete tables. -/
theorem c2_aggregate_terminates_witness :
    c2AggTable.rows.head? = some ⟨"Nominations and Wins", none, []⟩
    ∧ get_best_picture_nominations ([] ++ c2AggTable :: [c2GoodTable]) =
        get_best_picture_nominations [] :=
  ⟨by decide,
   c2_aggregate_terminates [] [c2GoodTable] c2AggTable
     ⟨"Nominations and Wins", none, []⟩ (by decide) (by decide) (by decide)⟩

/-! ## C3 — year carry-over -/

/-- A first table that establishes year "1990" and emits a record. -/
def c3YearTable : Table :=
  ⟨[], none,
   [⟨"1990 FilmA", some "1990", [⟨"FilmA", [⟨some "/wiki/FilmA", "FilmA"⟩]⟩]⟩]⟩

/-- A later table whose row has no header cell at all. -/
def c3LaterTable : Table :=
  ⟨[], none,
   [⟨"FilmB", none, [⟨"FilmB", [⟨some "/wiki/FilmB", "FilmB"⟩]⟩]⟩]⟩

/-- C3 counterexample: `current_year` is reset to `None` at the start of
every table (scrapper.py line 68), so a header-less row of a LATER
Block is emitted with no year, not with the year "1990" the previous
Block established — the claim's "including rows of later Blocks" fails. -/
theorem c3_counterexample :
    get_best_picture_nominations [c3YearTable, c3LaterTable] =
      [ ⟨some "1990", "FilmA", "https://en.wikipedia.org/wiki/FilmA"⟩
      , ⟨none, "FilmB", "https://en.wikipedia.org/wiki/FilmB"⟩ ]
    ∧ (get_best_picture_nominations [c3YearTable, c3LaterTable]).map Movie.year =
        [some "1990", none] := by
  decide

/-- Records of rows that supply no year of their own all carry the
incoming `current_year`. -/
theorem processRows_year_const (y : String) (rs : List Row)
    (hrs : ∀ r ∈ rs, extractYear r = none) :
    ∀ m ∈ processRows (some y) rs, m.year = some y := by
  induction rs with
  | nil => intro m hm; simp [processRows] at hm
  | cons r rs ih =>
    intro m hm
    have hup : yearUpdate (some y) r = some y := by
      unfold yearUpdate
      rw [hrs r (List.mem_cons_self r rs)]
    simp only [processRows, hup] at hm
    cases hr : rowRecord (some y) r with
    | none =>
      rw [hr] at hm
      exact ih (fun r' h' => hrs r' (List.mem_cons_of_mem r h')) m hm
    | some m0 =>
      rw [hr] at hm
      rcases List.mem_cons.mp hm with h | h
      · subst h; exact (rowRecord_spec _ _ _ hr).1
      · exact ih (fun r' h' => hrs r' (List.mem_cons_of_mem r h')) m h

/-- C3 (amended): within one Block's row loop, once a Row's header cell
establishes year `y`, every record emitted from that row or from
subsequent rows lacking a year-bearing header cell carries year `y`
(the header-bearing row's own record already carries it); the carry
does NOT extend into later Blocks, since each Block's row loop restarts
with no current year (scrapper.py line 68) — as `processTables`
unfolding shows for any non-stopped table. -/
theorem c3_year_carry (cur : Option String) (r0 : Row) (rs : List Row)
    (y : String) (h0 : extractYear r0 = some y)
    (hrs : ∀ r ∈ rs, extractYear r = none) :
    (∀ m ∈ processRows cur (r0 :: rs), m.year = some y)
    ∧ (∀ (t : Table) (ts : List Table),
        shouldStopTable t = false → captionStopTable t = false →
        firstRowStopTable t = false →
        processTables (t :: ts) = processRows none t.rows ++ processTables ts) := by
  constructor
  · intro m hm
    have hup : yearUpdate cur r0 = some y := by
      unfold yearUpdate; rw [h0]
    simp only [processRows, hup] at hm
    cases hr : rowRecord (some y) r0 with
    | none =>
      rw [hr] at hm
      exact processRows_year_const y rs hrs m hm
    | some m0 =>
      rw [hr] at hm
      rcases List.mem_cons.mp hm with h | h
      · subst h; exact (rowRecord_spec _ _ _ hr).1
      · exact processRows_year_const y rs hrs m h
  · intro t ts h1 h2 h3
    simp [processTables, h1, h2, h3]

/-- The spec's canonical rows: header "1990" with film A, then a
header-less row with film C. -/
def c3Row0 : Row :=
  ⟨"1990 FilmA", some "1990", [⟨"FilmA", [⟨some "/wiki/FilmA", "FilmA"⟩]⟩]⟩

/-- The follow-up row carried by the rowspan year. -/
def c3Row1 : Row :=
  ⟨"FilmC", none, [⟨"FilmC", [⟨some "/wiki/FilmC", "FilmC"⟩]⟩]⟩

/-- Witness for `c3_year_carry`: both rows' records get year "1990". -/
theorem c3_year_carry_witness :
    (⟨some "1990", "FilmC", "https://en.wikipedia.org/wiki/FilmC"⟩ : Movie)
        ∈ processRows none [c3Row0, c3Row1]
    ∧ (⟨some "1990", "FilmC", "https://en.wikipedia.org/wiki/FilmC"⟩ : Movie).year
        = some "1990" :=
  ⟨by decide,
   (c3_year_carry none c3Row0 [c3Row1] "1990" (by decide) (by decide)).1
     ⟨some "1990", "FilmC", "https://en.wikipedia.org/wiki/FilmC"⟩ (by decide)⟩

/-! ## C4 — year parsing -/

/-- The claim's parsing rule as worded: take the LEADING run of digits
of the header-cell text before any line break, and produce a year only
when that run has at least 4 digits (first 4 of them). -/
def specLeadingRunYear (t : String) : Option String :=
  let run := (t.toList.takeWhile (fun c => c != '\n')).takeWhile Char.isDigit
  if 4 ≤ run.length then some (String.mk (run.take 4)) else none

/-- A table whose header cell reads "(19)90": its leading digit run is
empty, but it contains 4 digit characters in total. -/
def c4Table : Table :=
  ⟨[], none,
   [⟨"(19)90 FilmD", some "(19)90", [⟨"FilmD", [⟨some "/wiki/FilmD", "FilmD"⟩]⟩]⟩]⟩

/-- C4 counterexample: the code joins ALL digit characters of the first
line (scrapper.py line 78), not the leading run.  On header text
"(19)90" the claim's rule finds a leading run of 0 digits and leaves
the year unchanged (absent), but the code emits year "1990". -/
theorem c4_counterexample :
    specLeadingRunYear "(19)90" = none
    ∧ get_best_picture_nominations [c4Table] =
        [⟨some "1990", "FilmD", "https://en.wikipedia.org/wiki/FilmD"⟩] := by
  decide

/-- A year produced by a header cell is exactly 4 digit characters. -/
theorem extractYear_shape (r : Row) (y : String)
    (h : extractYear r = some y) :
    y.length = 4 ∧ y.toList.all Char.isDigit = true := by
  unfold extractYear at h
  cases ht : r.th with
  | none => rw [ht] at h; cases h
  | some t =>
    rw [ht] at h; dsimp only at h
    split at h
    case isTrue hlen =>
      cases h
      constructor
      · show ((thDigits t).take 4).length = 4
        rw [List.length_take]
        omega
      · rw [show (String.mk ((thDigits t).take 4)).toList = (thDigits t).take 4 from rfl]
        rw [List.all_eq_true]
        intro c hc
        exact List.of_mem_filter (List.take_subset 4 (thDigits t) hc)
    case isFalse => cases h

/-- C4 (amended): the extractor collects ALL digit characters (in
order) of the header cell's text before any line break; only when at
least 4 are found does it set current-year, to the first 4 of them —
otherwise current-year is unchanged.  Consequently every emitted
record's year is either absent or a string of exactly 4 digits. -/
theorem c4_year_format :
    (∀ (tables : List Table), ∀ m ∈ get_best_picture_nominations tables,
        m.year = none ∨ ∃ s, m.year = some s ∧ s.length = 4 ∧
          s.toList.all Char.isDigit = true)
    ∧ (∀ (cur : Option String) (r : Row) (t : String), r.th = some t →
        (thDigits t).length < 4 → yearUpdate cur r = cur)
    ∧ (∀ (cur : Option String) (r : Row) (t : String), r.th = some t →
        4 ≤ (thDigits t).length →
        yearUpdate cur r = some (String.mk ((thDigits t).take 4))) := by
  refine ⟨?_, ?_, ?_⟩
  · intro tables m hm
    rcases processTables_mem tables m hm with ⟨t, _, hrow⟩
    have hP : ∀ (c : Option String) (r : Row),
        (c = none ∨ ∃ s, c = some s ∧ s.length = 4 ∧
          s.toList.all Char.isDigit = true) →
        (yearUpdate c r = none ∨ ∃ s, yearUpdate c r = some s ∧
          s.length = 4 ∧ s.toList.all Char.isDigit = true) := by
      intro c r hc
      unfold yearUpdate
      cases he : extractYear r with
      | none => exact hc
      | some y => exact Or.inr ⟨y, rfl, extractYear_shape r y he⟩
    rcases processRows_mem _ hP none t.rows m (Or.inl rfl) hrow with
      ⟨c, r, hc, hrr⟩
    rw [(rowRecord_spec c r m hrr).1]
    exact hc
  · intro cur r t hth hlt
    have he : extractYear r = none := by
      unfold extractYear; rw [hth]
      exact if_neg (by omega)
    unfold yearUpdate; rw [he]
  · intro cur r t hth hge
    have he : extractYear r = some (String.mk ((thDigits t).take 4)) := by
      unfold extractYear; rw [hth]
      exact if_pos hge
    unfold yearUpdate; rw [he]

/-- Witness for `c4_year_format` at the concrete table and a short
header text. -/
theorem c4_year_format_witness :
    ((⟨some "1990", "FilmD", "https://en.wikipedia.org/wiki/FilmD"⟩ : Movie).year = none
      ∨ ∃ s, (⟨some "1990", "FilmD", "https://en.wikipedia.org/wiki/FilmD"⟩ : Movie).year = some s
          ∧ s.length = 4 ∧ s.toList.all Char.isDigit = true)
    ∧ yearUpdate none ⟨"x", some "19 (2nd)", []⟩ = none :=
  ⟨c4_year_format.1 [c4Table]
     ⟨some "1990", "FilmD", "https://en.wikipedia.org/wiki/FilmD"⟩ (by decide),
   c4_year_format.2.1 none ⟨"x", some "19 (2nd)", []⟩ "19 (2nd)" rfl (by decide)⟩

/-! ## C5 — cell-role classification -/

/-- The claim's predicate: the cell text with all '/', '(', ')'
characters removed consists entirely of digits (a non-empty digit
string, as Python `str.isdigit` demands). -/
def specDigitsOnly (s : String) : Bool :=
  let r := s.toList.filter (fun c => c != '/' && c != '(' && c != ')')
  !r.isEmpty && r.all Char.isDigit

/-- The code's first-cell test agrees with the claim's wording: the
extra non-emptiness test on the raw text is redundant, because an empty
text also strips to an empty (hence non-digit) remainder. -/
theorem firstCellIsYear_eq_spec (s : String) :
    firstCellIsYear s = specDigitsOnly s := by
  cases hs : s == "" with
  | true =>
    have : s = "" := by simpa using hs
    subst this
    decide
  | false =>
    simp [firstCellIsYear, specDigitsOnly, hs]

/-- C5: rows with no data cells produce no record; with one data cell
that cell is the film cell; with two or more, the second cell is chosen
exactly when the first cell's text, stripped of '/', '(' and ')', is
entirely digits, and the first cell otherwise. -/
theorem c5_cell_role (r : Row) (cur : Option String) :
    (r.cells = [] → rowRecord cur r = none)
    ∧ (∀ c, r.cells = [c] → filmCell? r = some c)
    ∧ (∀ c0 c1 rest, r.cells = c0 :: c1 :: rest →
        filmCell? r = if specDigitsOnly c0.text then some c1 else some c0) := by
  refine ⟨?_, ?_, ?_⟩
  · intro h
    simp [rowRecord, filmCell?, h]
  · intro c h
    unfold filmCell?
    rw [h]
  · intro c0 c1 rest h
    unfold filmCell?
    rw [h]
    simp only [firstCellIsYear_eq_spec]

/-- The spec's "1995" year-indicator cell. -/
def c5YearCell : Cell := ⟨"1995", []⟩

/-- The spec's film cell with a link. -/
def c5FilmCell : Cell := ⟨"Film", [⟨some "/wiki/Film", "Film"⟩]⟩

/-- The spec's producer cell. -/
def c5ProdCell : Cell := ⟨"Producer", []⟩

/-- Row with cells ["1995", film-link]. -/
def c5RowYearFirst : Row := ⟨"1995 Film", none, [c5YearCell, c5FilmCell]⟩

/-- Row with cells [film-link, "Producer"]. -/
def c5RowFilmFirst : Row := ⟨"Film Producer", none, [c5FilmCell, c5ProdCell]⟩

/-- Witness for `c5_cell_role`: the spec's two canonical rows. -/
theorem c5_cell_role_witness :
    filmCell? c5RowYearFirst = some c5FilmCell
    ∧ filmCell? c5RowFilmFirst = some c5FilmCell := by
  constructor
  · rw [(c5_cell_role c5RowYearFirst none).2.2 c5YearCell c5FilmCell [] rfl]
    decide
  · rw [(c5_cell_role c5RowFilmFirst none).2.2 c5FilmCell c5ProdCell [] rfl]
    decide

/-! ## C6 — link filtering and per-row skip -/

/-- C6: only the film cell's first link matters; the row yields no
record when there is no link, no href, the href does not start with
"/wiki/", the href contains a colon, or the link text is empty; in
those cases only that row is skipped while the scan continues;
otherwise exactly one record {current-year, link text, base ++ href} is
emitted and the scan also continues. -/
theorem c6_link_filtering (cur : Option String) (r : Row) (cell : Cell)
    (hc : filmCell? r = some cell) :
    (cell.links = [] → rowRecord cur r = none)
    ∧ (∀ l ls, cell.links = l :: ls →
        rowRecord cur r =
          (match l.href with
           | none => none
           | some href =>
             if !pyStarts href "/wiki/" then none
             else if pyHasChar href ':' then none
             else if l.text == "" then none
             else some ⟨cur, l.text, urljoin href⟩))
    ∧ (∀ (c0 : Option String) (rs : List Row),
        rowRecord (yearUpdate c0 r) r = none →
        processRows c0 (r :: rs) = processRows (yearUpdate c0 r) rs)
    ∧ (∀ (c0 : Option String) (rs : List Row) (m : Movie),
        rowRecord (yearUpdate c0 r) r = some m →
        processRows c0 (r :: rs) = m :: processRows (yearUpdate c0 r) rs) := by
  refine ⟨?_, ?_, ?_, ?_⟩
  · intro h
    unfold rowRecord
    rw [hc]
    dsimp only
    unfold cellRecord
    rw [h]
    rfl
  · intro l ls h
    unfold rowRecord
    rw [hc]
    dsimp only
    unfold cellRecord
    rw [h]
    rfl
  · intro c0 rs h
    simp only [processRows, h]
  · intro c0 rs m h
    simp only [processRows, h]

/-- A film cell whose only link is a namespace (category) page. -/
def c6CatLink : Link := ⟨some "/wiki/Category:Drama_films", "Drama films"⟩

/-- The cell holding that link. -/
def c6CatCell : Cell := ⟨"Drama films", [c6CatLink]⟩

/-- The row holding that cell. -/
def c6CatRow : Row := ⟨"Drama films", none, [c6CatCell]⟩

/-- A well-formed row after the rejected one. -/
def c6GoodRow : Row :=
  ⟨"Good Film2", none, [⟨"Good Film2", [⟨some "/wiki/Good_Film2", "Good Film2"⟩]⟩]⟩

/-- Witness for `c6_link_filtering`: the category link yields no record
and only that row is skipped. -/
theorem c6_link_filtering_witness :
    filmCell? c6CatRow = some c6CatCell
    ∧ rowRecord none c6CatRow = none
    ∧ processRows none [c6CatRow, c6GoodRow] =
        [⟨none, "Good Film2", "https://en.wikipedia.org/wiki/Good_Film2"⟩] := by
  refine ⟨by decide, ?_, ?_⟩
  · rw [(c6_link_filtering none c6CatRow c6CatCell (by decide)).2.1 c6CatLink [] rfl]
    decide
  · rw [(c6_link_filtering none c6CatRow c6CatCell (by decide)).2.2.1 none
      [c6GoodRow] (by decide)]
    decide

/-! ## C7 — section boundary -/

/-- A walk-terminating sibling (scrapper.py lines 156–164): a
heading-wrapper `div` with class `mw-heading` containing an `<h2>`, or
a bare `<h2>`. -/
def isBoundary : Node → Bool
  | .text _ => false
  | .elem tag classes cs =>
    (tag == "div" && classes.contains "mw-heading" && listHasH2 cs) || tag == "h2"

/-- The text a sibling contributes to the walk (scrapper.py lines
166–170): `<p>` elements with non-empty space-joined stripped text,
nothing else. -/
def paraText? : Node → Option String
  | .text _ => none
  | .elem tag classes cs =>
    if tag == "p" then
      (let t := getTextSpaceStrip (.elem tag classes cs)
       if t == "" then none else some t)
    else none

/-- The sibling walk over a boundary-free run followed by a boundary
collects exactly the paragraph texts of the run. -/
theorem collectPlot_split (pre post : List Node) (b : Node)
    (hb : isBoundary b = true) (hpre : ∀ n ∈ pre, isBoundary n = false) :
    collectPlot (pre ++ b :: post) = pre.filterMap paraText? := by
  induction pre with
  | nil =>
    simp only [List.nil_append, List.filterMap_nil]
    cases b with
    | text s => simp [isBoundary] at hb
    | elem tag classes cs =>
      simp only [isBoundary, Bool.or_eq_true] at hb
      simp only [collectPlot]
      by_cases h1 : (tag == "div" && classes.contains "mw-heading" && listHasH2 cs) = true
      · rw [if_pos h1]
      · have h2 : (tag == "h2") = true := by
          rcases hb with h | h
          · exact absurd h h1
          · exact h
        rw [if_neg h1, if_pos h2]
  | cons n pre ih =>
    have hn : isBoundary n = false := hpre n (List.mem_cons_self n pre)
    have hpre' : ∀ x ∈ pre, isBoundary x = false :=
      fun x hx => hpre x (List.mem_cons_of_mem n hx)
    cases n with
    | text s =>
      rw [show ((Node.text s :: pre) ++ b :: post) =
            Node.text s :: (pre ++ b :: post) from rfl]
      rw [show collectPlot (Node.text s :: (pre ++ b :: post)) =
            collectPlot (pre ++ b :: post) from rfl]
      rw [ih hpre']
      rfl
    | elem tag classes cs =>
      simp only [isBoundary, Bool.or_eq_false_iff] at hn
      rcases hn with ⟨h1, h2⟩
      rw [show ((Node.elem tag classes cs :: pre) ++ b :: post) =
            Node.elem tag classes cs :: (pre ++ b :: post) from rfl]
      simp only [collectPlot]
      rw [if_neg (by rw [h1]; decide), if_neg (by rw [h2]; decide)]
      by_cases h3 : (tag == "p") = true
      · rw [if_pos h3]
        by_cases h4 : (getTextSpaceStrip (Node.elem tag classes cs) == "") = true
        · have hp : paraText? (Node.elem tag classes cs) = none := by
            simp only [paraText?]
            rw [if_pos h3]
            rw [if_pos h4]
          rw [if_pos h4, ih hpre']
          simp only [List.filterMap_cons, hp]
        · have hp : paraText? (Node.elem tag classes cs) =
              some (getTextSpaceStrip (Node.elem tag classes cs)) := by
            simp only [paraText?]
            rw [if_pos h3]
            rw [if_neg h4]
          rw [if_neg h4, ih hpre']
          simp only [List.filterMap_cons, hp]
      · have hp : paraText? (Node.elem tag classes cs) = none := by
          simp only [paraText?]
          rw [if_neg h3]
        rw [if_neg h3, ih hpre']
        simp only [List.filterMap_cons, hp]

/-- C7: once the heading search succeeds and the following siblings are
a boundary-free run, a boundary, and anything after it, the extractor
returns exactly the non-empty stripped texts of the run's paragraph
elements, joined by single spaces (absent when there are none); `<h3>`
sub-headings neither terminate the walk nor contribute text. -/
theorem c7_section_boundary (soup : List Node) (label : String)
    (pre post : List Node) (b : Node)
    (hf : findSecList label soup = some (pre ++ b :: post))
    (hb : isBoundary b = true)
    (hpre : ∀ n ∈ pre, isBoundary n = false) :
    extract_plot_from_section soup label =
      (if (pre.filterMap paraText?).isEmpty then none
       else some (joinSep " " (pre.filterMap paraText?)))
    ∧ (∀ (classes : List String) (cs : List Node),
        isBoundary (.elem "h3" classes cs) = false
        ∧ paraText? (.elem "h3" classes cs) = none) := by
  constructor
  · unfold extract_plot_from_section
    rw [hf]
    dsimp only
    rw [collectPlot_split pre post b hb hpre]
  · intro classes cs
    exact ⟨rfl, rfl⟩

/-- Paragraph "First para.". -/
def c7P1 : Node := .elem "p" [] [.text "First para."]

/-- Paragraph "Second para.". -/
def c7P2 : Node := .elem "p" [] [.text "Second para."]

/-- A paragraph of the following section. -/
def c7P3 : Node := .elem "p" [] [.text "Actor paragraph."]

/-- The "Plot" heading wrapper. -/
def c7PlotHead : Node := .elem "div" ["mw-heading"] [.elem "h2" [] [.text "Plot"]]

/-- The next top-level ("Cast") heading wrapper. -/
def c7CastHead : Node := .elem "div" ["mw-heading"] [.elem "h2" [] [.text "Cast"]]

/-- The spec's canonical document: Plot heading, two paragraphs, Cast
heading, more paragraphs. -/
def c7Doc : List Node := [c7PlotHead, c7P1, c7P2, c7CastHead, c7P3]

/-- Witness for `c7_section_boundary` on the canonical document. -/
theorem c7_section_boundary_witness :
    findSecList "Plot" c7Doc = some [c7P1, c7P2, c7CastHead, c7P3]
    ∧ extract_plot_from_section c7Doc "Plot" = some "First para. Second para." := by
  constructor
  · rfl
  · rw [(c7_section_boundary c7Doc "Plot" [c7P1, c7P2] [c7P3] c7CastHead rfl rfl
      (by decide)).1]
    decide

/-! ## C8 — absence as a first-class result and label fallback -/

/-- Every text the sibling walk collects is non-empty. -/
theorem collectPlot_ne_empty (ns : List Node) :
    ∀ t ∈ collectPlot ns, ¬(t = "") := by
  induction ns with
  | nil => intro t ht; simp [collectPlot] at ht
  | cons n ns ih =>
    intro t ht
    cases n with
    | text s =>
      rw [show collectPlot (Node.text s :: ns) = collectPlot ns from rfl] at ht
      exact ih t ht
    | elem tag classes cs =>
      simp only [collectPlot] at ht
      by_cases h1 : (tag == "div" && classes.contains "mw-heading" && listHasH2 cs) = true
      · rw [if_pos h1] at ht; simp at ht
      · rw [if_neg h1] at ht
        by_cases h2 : (tag == "h2") = true
        · rw [if_pos h2] at ht; simp at ht
        · rw [if_neg h2] at ht
          by_cases h3 : (tag == "p") = true
          · rw [if_pos h3] at ht
            by_cases h4 : (getTextSpaceStrip (Node.elem tag classes cs) == "") = true
            · rw [if_pos h4] at ht
              exact ih t ht
            · rw [if_neg h4] at ht
              rcases List.mem_cons.mp ht with h | h
              · subst h
                simpa using h4
              · exact ih t h
          · rw [if_neg h3] at ht
            exact ih t ht

/-- Joining non-empty strings with a space separator cannot give the
empty string when the list is non-empty. -/
theorem joinSep_ne_empty (l : List String) (hne : ¬(l = []))
    (h : ∀ t ∈ l, ¬(t = "")) : ¬(joinSep " " l = "") := by
  cases l with
  | nil => exact absurd rfl hne
  | cons s rest =>
    cases rest with
    | nil =>
      intro he
      exact h s (List.mem_cons_self s []) he
    | cons s2 rest2 =>
      intro he
      have h0 := congrArg (fun x : String => x.data.length) he
      simp only [joinSep, String.data_append, List.length_append] at h0
      simp at h0

/-- The section extractor never returns `some ""`. -/
theorem eps_not_some_empty (soup : List Node) (label : String) :
    ¬(extract_plot_from_section soup label = some "") := by
  unfold extract_plot_from_section
  cases hf : findSecList label soup with
  | none => simp
  | some rest =>
    dsimp only
    by_cases hE : (collectPlot rest).isEmpty = true
    · rw [if_pos hE]; simp
    · rw [if_neg hE]
      intro he
      injection he with he
      refine joinSep_ne_empty (collectPlot rest) ?_ (collectPlot_ne_empty rest) he
      intro h0
      rw [h0] at hE
      exact hE rfl

/-- C8: a failed heading search yields absent; an empty collected
paragraph sequence yields absent; and the caller falls back to
"Synopsis" exactly when the "Plot" attempt returned absent. -/
theorem c8_absence_and_fallback :
    (∀ (soup : List Node) (label : String),
        findSecList label soup = none →
        extract_plot_from_section soup label = none)
    ∧ (∀ (soup : List Node) (label : String) (rest : List Node),
        findSecList label soup = some rest → collectPlot rest = [] →
        extract_plot_from_section soup label = none)
    ∧ (∀ soup : List Node,
        extract_plot soup =
          match extract_plot_from_section soup "Plot" with
          | some t => some t
          | none => extract_plot_from_section soup "Synopsis") := by
  refine ⟨?_, ?_, ?_⟩
  · intro soup label h
    unfold extract_plot_from_section
    rw [h]
  · intro soup label rest h hc
    unfold extract_plot_from_section
    rw [h]
    dsimp only
    rw [hc]
    rfl
  · intro soup
    unfold extract_plot
    cases hp : extract_plot_from_section soup "Plot" with
    | none =>
      dsimp only
      rw [show pyFalsy none = true from rfl, if_pos rfl]
      cases hs : extract_plot_from_section soup "Synopsis" with
      | none => rfl
      | some t =>
        have hne : ¬(t = "") := by
          intro he; subst he; exact eps_not_some_empty soup "Synopsis" hs
        have : pyFalsy (some t) = false := by
          unfold pyFalsy; simpa using hne
        rw [this, if_neg (by simp)]
    | some t =>
      have hne : ¬(t = "") := by
        intro he; subst he; exact eps_not_some_empty soup "Plot" hp
      dsimp only
      simp [pyFalsy, hne]

/-- A document with only a "Synopsis" section. -/
def c8SynDoc : List Node :=
  [ .elem "div" ["mw-heading"] [.elem "h2" [] [.text "Synopsis"]]
  , .elem "p" [] [.text "In a city."] ]

/-- Witness for `c8_absence_and_fallback`: no heading matches "Plot",
the "Plot" attempt returns absent, and the caller still obtains the
"Synopsis" section text. -/
theorem c8_absence_and_fallback_witness :
    findSecList "Plot" c8SynDoc = none
    ∧ extract_plot_from_section c8SynDoc "Plot" = none
    ∧ extract_plot_from_section c8SynDoc "Synopsis" = some "In a city."
    ∧ extract_plot c8SynDoc = some "In a city." := by
  refine ⟨rfl, c8_absence_and_fallback.1 c8SynDoc "Plot" rfl, by decide, ?_⟩
  rw [c8_absence_and_fallback.2.2 c8SynDoc]
  decide

/-! ## C9 — determinism / idempotence -/

/-- C9: both analyzers are pure functions of their parsed inputs in
this embedding (the Python functions keep no state across calls other
than locals; `movies`, `current_year`, `plot_text` are re-created per
call), so two runs on equal inputs give equal outputs. -/
theorem c9_determinism :
    (∀ tables : List Table,
        get_best_picture_nominations tables = get_best_picture_nominations tables)
    ∧ (∀ (soup : List Node) (label : String),
        extract_plot_from_section soup label = extract_plot_from_section soup label)
    ∧ (∀ soup : List Node, extract_plot soup = extract_plot soup) :=
  ⟨fun _ => rfl, fun _ _ => rfl, fun _ => rfl⟩

/-! ## C10 — record output invariant -/

/-- A table whose accepted link href contains a '..' dot segment. -/
def c10DotTable : Table :=
  ⟨[], none,
   [⟨"Dotted", none, [⟨"Dotted", [⟨some "/wiki/../Dotted", "Dotted"⟩]⟩]⟩]⟩

/-- C10 counterexample: href "/wiki/../Dotted" passes every filter
(it starts with "/wiki/" and has no colon), but `urljoin` performs
dot-segment removal, so the program emits url
"https://en.wikipedia.org/Dotted", which does not begin with
"https://en.wikipedia.org/wiki/". -/
theorem c10_counterexample :
    pyStarts "/wiki/../Dotted" "/wiki/" = true
    ∧ pyHasChar "/wiki/../Dotted" ':' = false
    ∧ get_best_picture_nominations [c10DotTable] =
        [⟨none, "Dotted", "https://en.wikipedia.org/Dotted"⟩]
    ∧ pyStarts "https://en.wikipedia.org/Dotted"
        "https://en.wikipedia.org/wiki/" = false := by
  decide

/-- A non-empty string has a non-empty character list. -/
theorem toList_ne_nil (s : String) (h : ¬(s = "")) : ¬(s.toList = []) := by
  obtain ⟨l⟩ := s
  cases l with
  | nil => exact absurd rfl h
  | cons c cs => intro hc; cases hc

/-- The path-plus-params part of a joined url is never empty (the
`or '/'` step guarantees it). -/
theorem pathParams_toList_ne_nil (href : String) :
    ¬((pathParams href).toList = []) := by
  unfold pathParams
  by_cases hq : (hrefParams href == "") = true
  · rw [if_pos hq]
    unfold resolvedPath
    by_cases hp : (joinSep "/" (resolvedSegs href) == "") = true
    · rw [if_pos hp]; decide
    · rw [if_neg hp]
      exact toList_ne_nil _ (by simpa using hp)
  · rw [if_neg hq]
    intro hc
    have h2 : (resolvedPath href ++ ";" ++ hrefParams href).data = [] := hc
    rw [String.data_append, String.data_append,
      show (";" : String).data = [';'] from rfl] at h2
    simp at h2

/-- The path part of a joined url always starts with a slash. -/
theorem urljoinPath_starts (href : String) :
    ∃ rest : List Char, (urljoinPath href).toList = '/' :: rest := by
  unfold urljoinPath
  cases hl : (pathParams href).toList with
  | nil => exact absurd hl (pathParams_toList_ne_nil href)
  | cons c cs =>
    dsimp only
    by_cases hc : (c == '/') = true
    · rw [if_pos hc]
      refine ⟨cs, ?_⟩
      rw [hl]
      have hce : c = '/' := by simpa using hc
      rw [hce]
    · rw [if_neg hc]
      refine ⟨(pathParams href).toList, ?_⟩
      show ("/" ++ pathParams href).data = '/' :: (pathParams href).data
      rw [String.data_append]
      rfl

/-- Every joined url begins with "https://en.wikipedia.org/". -/
theorem urljoin_starts (href : String) :
    pyStarts (urljoin href) "https://en.wikipedia.org/" = true := by
  obtain ⟨rest, hrest⟩ := urljoinPath_starts href
  unfold pyStarts urljoin
  rw [ List.isPrefixOf_iff_prefix]
  have hd : ("https://en.wikipedia.org" ++ urljoinPath href ++ urljoinSuffix href).toList
      = "https://en.wikipedia.org".toList ++
        ((urljoinPath href).toList ++ (urljoinSuffix href).toList) := by
    show ("https://en.wikipedia.org" ++ urljoinPath href ++ urljoinSuffix href).data
        = "https://en.wikipedia.org".data ++
          ((urljoinPath href).data ++ (urljoinSuffix href).data)
    rw [String.data_append, String.data_append, List.append_assoc]
  rw [hd, hrest, List.cons_append]
  rw [show ("https://en.wikipedia.org/").toList =
      "https://en.wikipedia.org".toList ++ ['/'] from rfl]
  exact (List.prefix_append_right_inj _).mpr
    ⟨rest ++ (urljoinSuffix href).toList, rfl⟩

/-- C10 (amended): every emitted record has a non-empty title and a
URL obtained by `urljoin` from an accepted href — the href starts with
"/wiki/" and contains no colon anywhere (the namespace test inspects
the entire href); because `urljoin` performs dot-segment removal, the
URL is only guaranteed to begin with "https://en.wikipedia.org/", not
with "https://en.wikipedia.org/wiki/". -/
theorem c10_record_invariant (tables : List Table) (m : Movie)
    (hm : m ∈ get_best_picture_nominations tables) :
    ¬(m.title = "")
    ∧ pyStarts m.url "https://en.wikipedia.org/" = true
    ∧ ∃ href : String, pyStarts href "/wiki/" = true
        ∧ pyHasChar href ':' = false
        ∧ m.url = urljoin href := by
  rcases processTables_mem tables m hm with ⟨t, _, hrow⟩
  rcases processRows_mem (fun _ => True) (fun _ _ _ => trivial) none t.rows m
    trivial hrow with ⟨c, r, _, hrr⟩
  rcases rowRecord_spec c r m hrr with ⟨hy, hti, href, h1, h2, h3⟩
  refine ⟨hti, ?_, href, h1, h2, h3⟩
  rw [h3]
  exact urljoin_starts href

/-- A one-row table for the invariant witness. -/
def c10Table : Table :=
  ⟨[], none, [⟨"Inv Film", none, [⟨"Inv Film", [⟨some "/wiki/Inv_Film", "Inv Film"⟩]⟩]⟩]⟩

/-- Witness for `c10_record_invariant` at a concrete record. -/
theorem c10_record_invariant_witness :
    ¬((⟨none, "Inv Film", "https://en.wikipedia.org/wiki/Inv_Film"⟩ : Movie).title = "")
    ∧ pyStarts (⟨none, "Inv Film", "https://en.wikipedia.org/wiki/Inv_Film"⟩ : Movie).url
        "https://en.wikipedia.org/" = true := by
  have h := c10_record_invariant [c10Table]
    ⟨none, "Inv Film", "https://en.wikipedia.org/wiki/Inv_Film"⟩ (by decide)
  exact ⟨h.1, h.2.1⟩
